import Mathlib

/-!
Shallow embedding of the resilient email service (TypeScript sources:
`EmailQueue`, `CircuitBreaker`, `RetryMechanism`, `RateLimiter`,
`IdempotencyService`, `EmailService`) together with theorems settling the
frozen specification claims.

Modelling conventions:
* timestamps (`Date.now()`, `new Date()`) are natural numbers (milliseconds);
* JavaScript `Map`s become association lists with replace-first update,
  matching `Map.get`-then-mutate semantics;
* a fallible asynchronous operation is a value of `Except String α`
  (the `String` is the thrown `Error`'s message);
* an external provider is a function from the retry-attempt number to the
  outcome of that invocation, so repeated invocations may differ;
* `undefined` optional values become `Option`.
-/

/-- Outcome record returned by a provider (TS `EmailResult`). -/
structure EmailResult where
  success : Bool
  messageId : Option String
  error : Option String
  provider : String
  timestamp : Nat
deriving Repr, DecidableEq

/-- TS `EmailAttachment` (the `Buffer | string` content abstracted to `String`). -/
structure EmailAttachment where
  filename : String
  content : String
  contentType : Option String
deriving Repr, DecidableEq

/-- TS `string | string[]` for the `to` field of `EmailData`. -/
inductive StrOrList where
  | str (s : String)
  | arr (l : List String)
deriving Repr, DecidableEq

/-- TS `EmailData`.  `to` and `from` are Lean keywords, hence `toAddr` and
`fromAddr`. -/
structure EmailData where
  toAddr : StrOrList
  fromAddr : String
  subject : String
  body : String
  html : Option String
  cc : Option (List String)
  bcc : Option (List String)
  attachments : Option (List EmailAttachment)
deriving Repr, DecidableEq

/-- TS `QueueItem`. -/
structure QueueItem where
  id : Nat
  email : EmailData
  priority : Int
  createdAt : Nat
  retryCount : Nat
deriving Repr, DecidableEq

namespace EmailQueue

/-- The insertion index computed by the loop in
`EmailQueue.insertWithPriority`: starting from 0, each iteration with
`queue[i].priority < item.priority` sets the index to `i + 1` and continues;
the first iteration failing that test breaks out of the loop. -/
def insertIndex (p : Int) : List QueueItem → Nat
  | [] => 0
  | x :: xs => if x.priority < p then insertIndex p xs + 1 else 0

/-- `Array.splice(idx, 0, item)`. -/
def spliceIn (idx : Nat) (item : QueueItem) (q : List QueueItem) : List QueueItem :=
  q.take idx ++ item :: q.drop idx

/-- TS `EmailQueue.insertWithPriority`. -/
def insertWithPriority (item : QueueItem) (q : List QueueItem) : List QueueItem :=
  spliceIn (insertIndex item.priority q) item q

/-- TS `EmailQueue.enqueue` (the generated UUID is passed in as `id`). -/
def enqueue (q : List QueueItem) (email : EmailData) (priority : Int) (id : Nat)
    (now : Nat) : Nat × List QueueItem :=
  (id, insertWithPriority { id := id, email := email, priority := priority,
                            createdAt := now, retryCount := 0 } q)

/-- TS `EmailQueue.dequeue` (`Array.shift`). -/
def dequeue (q : List QueueItem) : Option QueueItem × List QueueItem :=
  match q with
  | [] => (none, [])
  | x :: xs => (some x, xs)

end EmailQueue

/-- A concrete message for scenario evaluation. -/
def sampleEmail : EmailData :=
  { toAddr := .str "user@example.com", fromAddr := "noreply@example.com",
    subject := "s", body := "b", html := none, cc := none, bcc := none,
    attachments := none }

/-- The queue produced by the spec's scenario: `enqueue(a, priority=5)`,
`enqueue(b, priority=10)`, `enqueue(c, priority=5)` on an empty queue, with
ids 0, 1, 2 for a, b, c.  Since `dequeue` shifts the front, the id sequence
of the resulting list is the dequeue order. -/
def c1ScenarioQueue : List QueueItem :=
  let r1 := EmailQueue.enqueue [] sampleEmail 5 0 0
  let r2 := EmailQueue.enqueue r1.2 sampleEmail 10 1 1
  let r3 := EmailQueue.enqueue r2.2 sampleEmail 5 2 2
  r3.2

/-- TS `CircuitBreakerState`. -/
inductive CircuitBreakerState where
  | CLOSED
  | OPEN
  | HALF_OPEN
deriving Repr, DecidableEq

/-- TS `CircuitBreakerConfig`. -/
structure CircuitBreakerConfig where
  failureThreshold : Nat
  recoveryTimeout : Nat
  monitoringPeriod : Nat
deriving Repr, DecidableEq

/-- TS `CircuitBreaker` instance fields. -/
structure CircuitBreaker where
  state : CircuitBreakerState
  failureCount : Nat
  lastFailureTime : Option Nat
  nextAttemptTime : Option Nat
  config : CircuitBreakerConfig
deriving Repr, DecidableEq

namespace CircuitBreaker

/-- The freshly constructed breaker. -/
def init (config : CircuitBreakerConfig) : CircuitBreaker :=
  { state := .CLOSED, failureCount := 0, lastFailureTime := none,
    nextAttemptTime := none, config := config }

/-- TS `CircuitBreaker.shouldAttemptReset`: `Date.now() >= nextAttemptTime`. -/
def shouldAttemptReset (cb : CircuitBreaker) (now : Nat) : Bool :=
  match cb.nextAttemptTime with
  | none => false
  | some t => t ≤ now

/-- TS `CircuitBreaker.onSuccess`. -/
def onSuccess (cb : CircuitBreaker) : CircuitBreaker :=
  { cb with failureCount := 0, state := .CLOSED,
            lastFailureTime := none, nextAttemptTime := none }

/-- TS `CircuitBreaker.onFailure`. -/
def onFailure (cb : CircuitBreaker) (now : Nat) : CircuitBreaker :=
  let cb1 := { cb with failureCount := cb.failureCount + 1, lastFailureTime := some now }
  if cb1.config.failureThreshold ≤ cb1.failureCount then
    { cb1 with state := .OPEN, nextAttemptTime := some (now + cb1.config.recoveryTimeout) }
  else cb1

/-- Observable outcome of `CircuitBreaker.execute`: the operation's value,
the operation's rethrown error, or the fail-fast circuit-open error (which
carries `lastFailureTime`, interpolated into the thrown message). -/
inductive Outcome (ε α : Type _) where
  | ok (a : α)
  | err (e : ε)
  | circuitOpen (lastFailure : Option Nat)
deriving Repr, DecidableEq

/-- The `try { await operation() } catch` body of `CircuitBreaker.execute`. -/
def runOp {ε α : Type _} (cb : CircuitBreaker) (now : Nat) (op : Except ε α) :
    CircuitBreaker × Outcome ε α :=
  match op with
  | .ok a => (onSuccess cb, .ok a)
  | .error e => (onFailure cb now, .err e)

/-- TS `CircuitBreaker.execute`.  `op` is the outcome the operation would
produce if invoked now. -/
def execute {ε α : Type _} (cb : CircuitBreaker) (now : Nat) (op : Except ε α) :
    CircuitBreaker × Outcome ε α :=
  if cb.state = .OPEN then
    if shouldAttemptReset cb now then
      runOp { cb with state := .HALF_OPEN } now op
    else (cb, .circuitOpen cb.lastFailureTime)
  else runOp cb now op

/-- A sequence of `execute` calls whose operation always throws `e`, at the
given call times. -/
def foldFailures {ε : Type _} (cb : CircuitBreaker) (e : ε) (ts : List Nat) :
    CircuitBreaker :=
  ts.foldl (fun c t => (execute (α := Unit) c t (.error e)).1) cb

end CircuitBreaker

/-- TS `RetryConfig`. -/
structure RetryConfig where
  maxAttempts : Nat
  initialDelay : Nat
  maxDelay : Nat
  backoffMultiplier : Nat
deriving Repr, DecidableEq

namespace RetryMechanism

/-- TS `RetryMechanism.calculateDelay`:
`min(initialDelay * backoffMultiplier ^ (attempt - 1), maxDelay)`. -/
def calculateDelay (cfg : RetryConfig) (attempt : Nat) : Nat :=
  min (cfg.initialDelay * cfg.backoffMultiplier ^ (attempt - 1)) cfg.maxDelay

/-- TS `RetryMechanism.execute` unfolded from its starting attempt.  `op n`
is the outcome of the operation's `n`-th invocation.  The second component
counts how many times the operation was invoked. -/
def executeFrom {ε α : Type _} (cfg : RetryConfig) (op : Nat → Except ε α)
    (attempt : Nat) : Except ε α × Nat :=
  match op attempt with
  | .ok a => (.ok a, 1)
  | .error e =>
    if h : cfg.maxAttempts ≤ attempt then (.error e, 1)
    else
      let r := executeFrom cfg op (attempt + 1)
      (r.1, r.2 + 1)
termination_by cfg.maxAttempts - attempt
decreasing_by omega

/-- TS `RetryMechanism.execute` with its default `attempt = 1`. -/
def execute {ε α : Type _} (cfg : RetryConfig) (op : Nat → Except ε α) :
    Except ε α × Nat :=
  executeFrom cfg op 1

/-- The first attempt index in `[attempt, attempt + fuel)` at which `op`
succeeds. -/
def firstOkFrom {ε α : Type _} (op : Nat → Except ε α) (attempt fuel : Nat) :
    Option Nat :=
  match fuel with
  | 0 => none
  | f + 1 =>
    match op attempt with
    | .ok _ => some attempt
    | .error _ => firstOkFrom op (attempt + 1) f

/-- The attempts-to-first-success of `op` within the first `bound` attempts
(numbered from 1). -/
def firstOk {ε α : Type _} (op : Nat → Except ε α) (bound : Nat) : Option Nat :=
  firstOkFrom op 1 bound

end RetryMechanism

/-- TS `IdempotencyService` instance fields: the result cache and the
pending-request set. -/
structure IdempotencyService where
  cache : List (String × EmailResult)
  pending : List String
deriving Repr, DecidableEq

namespace IdempotencyService

/-- The freshly constructed service. -/
def init : IdempotencyService := ⟨[], []⟩

/-- TS `IdempotencyService.getResult` (`Map.get`). -/
def getResult (s : IdempotencyService) (key : String) : Option EmailResult :=
  (s.cache.find? (fun p => p.1 == key)).map (fun p => p.2)

/-- Lexicographic comparison of character lists by code value, as JS
compares strings by UTF-16 code units (identical on the Basic Multilingual
Plane). -/
def charListLe : List Char → List Char → Bool
  | [], _ => true
  | _ :: _, [] => false
  | a :: as, b :: bs =>
    if a.toNat < b.toNat then true
    else if b.toNat < a.toNat then false
    else charListLe as bs

/-- JS string comparison `a <= b`. -/
def strLe (a b : String) : Bool := charListLe a.data b.data

/-- Insert into a sorted list of strings. -/
def insertSorted (a : String) : List String → List String
  | [] => [a]
  | b :: bs => if strLe b a then b :: insertSorted a bs else a :: b :: bs

/-- The sorted copy JS `sort` leaves behind (the TS code sorts in place). -/
def sortStrings (l : List String) : List String := l.foldr insertSorted []

/-- Lower-case hexadecimal digit. -/
def hexDigit (n : Nat) : Char :=
  if n < 10 then Char.ofNat (48 + n) else Char.ofNat (87 + n)

/-- Four hexadecimal digits, as in JSON `\uXXXX` escapes. -/
def hex4 (n : Nat) : String :=
  String.mk [hexDigit (n / 4096 % 16), hexDigit (n / 256 % 16),
             hexDigit (n / 16 % 16), hexDigit (n % 16)]

/-- `JSON.stringify` escaping of one character. -/
def jsonEscapeChar (c : Char) : String :=
  if c = '"' then "\\\""
  else if c = '\\' then "\\\\"
  else if c = '\x08' then "\\b"
  else if c = '\x09' then "\\t"
  else if c = '\x0a' then "\\n"
  else if c = '\x0c' then "\\f"
  else if c = '\x0d' then "\\r"
  else if c.toNat < 32 then "\\u" ++ hex4 c.toNat
  else String.singleton c

/-- `JSON.stringify` of a string. -/
def jsonString (s : String) : String :=
  "\"" ++ String.join (s.data.map jsonEscapeChar) ++ "\""

/-- `JSON.stringify` of an array of strings. -/
def jsonStringArray (l : List String) : String :=
  "[" ++ String.intercalate "," (l.map jsonString) ++ "]"

/-- JS `ToInt32` (the effect of `x & x` and of `<<` on a JS number). -/
def toInt32 (n : Int) : Int := ((n + 2147483648) % 4294967296) - 2147483648

/-- One iteration of the hash loop in `generateKey`:
`hash = ((hash << 5) - hash) + charCode; hash = hash & hash`. -/
def hashStep (h : Int) (c : Char) : Int := toInt32 (toInt32 (h * 32) - h + c.toNat)

/-- The hash loop over `emailContent` (code points coincide with UTF-16 code
units for the characters produced here). -/
def hashString (s : String) : Int := s.data.foldl hashStep 0

/-- JS truthiness of the optional `idempotencyKey` string parameter:
`undefined` and the empty string are falsy. -/
def jsTruthy : Option String → Bool
  | none => false
  | some s => !(s == "")

/-- The fall-through body of `generateKey` when `if (idempotencyKey)` is
falsy: canonicalize (JS `Array.prototype.sort` sorts in place, mutating the
caller's `to`, `cc` and `bcc` arrays), serialize (properties whose value is
`undefined` are omitted by `JSON.stringify`) and hash.  The second component
is the email object as the caller sees it after the call. -/
def generateContentKey (email : EmailData) (userId : Option String) :
    String × EmailData :=
  let sortedTo : StrOrList :=
    match email.toAddr with
    | .str s => .str s
    | .arr l => .arr (sortStrings l)
  let email' := { email with toAddr := sortedTo,
                             cc := email.cc.map sortStrings,
                             bcc := email.bcc.map sortStrings }
  let fields : List (Option String) :=
    [ some (jsonString "to" ++ ":" ++
        (match sortedTo with
         | .str s => jsonString s
         | .arr l => jsonStringArray l)),
      some (jsonString "from" ++ ":" ++ jsonString email.fromAddr),
      some (jsonString "subject" ++ ":" ++ jsonString email.subject),
      some (jsonString "body" ++ ":" ++ jsonString email.body),
      email.html.map (fun h => jsonString "html" ++ ":" ++ jsonString h),
      email'.cc.map (fun l => jsonString "cc" ++ ":" ++ jsonStringArray l),
      email'.bcc.map (fun l => jsonString "bcc" ++ ":" ++ jsonStringArray l),
      userId.map (fun u => jsonString "userId" ++ ":" ++ jsonString u) ]
  let emailContent := "\x7b" ++ String.intercalate "," (fields.filterMap id) ++ "\x7d"
  let h := hashString emailContent
  ("email_" ++ toString h.natAbs ++ "_" ++ userId.getD "anonymous", email')

/-- TS `IdempotencyService.generateKey`.  The guard is `if (idempotencyKey)`
— JS truthiness — so an absent or empty token falls through to the
canonicalization path, which sorts in place. -/
def generateKey (email : EmailData) (idempotencyKey : Option String)
    (userId : Option String) : String × EmailData :=
  if jsTruthy idempotencyKey then
    ("idempotency_" ++ idempotencyKey.getD "", email)
  else
    generateContentKey email userId

/-- TS `IdempotencyService.execute`, sequentially: `op` is a state
transformer on `σ` standing for the awaited operation; the `Bool` records
whether `op` was invoked.  When the key is already pending, the sequential
model can only observe `waitForPendingRequest`'s poll loop running out its
30s bound, since no concurrent task can complete meanwhile. -/
def execute {σ : Type _} (s : IdempotencyService) (key : String) (stt : σ)
    (op : σ → σ × Except String EmailResult) :
    IdempotencyService × σ × Except String EmailResult × Bool :=
  match getResult s key with
  | some r => (s, stt, .ok r, false)
  | none =>
    if key ∈ s.pending then
      (s, stt, .error "Timeout waiting for pending request", false)
    else
      let pending1 := key :: s.pending
      let r := op stt
      match r.2 with
      | .ok v =>
        ({ cache := (key, v) :: s.cache, pending := pending1.erase key }, r.1, .ok v, true)
      | .error e =>
        ({ cache := s.cache, pending := pending1.erase key }, r.1, .error e, true)

end IdempotencyService

/-- A concrete cached outcome used by witnesses. -/
def sampleResult : EmailResult :=
  { success := true, messageId := some "m1", error := none,
    provider := "MockProvider-A", timestamp := 5 }

/-- TS `RateLimitConfig` (`timeWindow` in milliseconds). -/
structure RateLimitConfig where
  maxRequests : Nat
  timeWindow : Nat
deriving Repr, DecidableEq

/-- TS `RateLimiter` instance fields: the internal timestamp list. -/
structure RateLimiter where
  requests : List Nat
  config : RateLimitConfig
deriving Repr, DecidableEq

namespace RateLimiter

/-- The freshly constructed limiter. -/
def init (config : RateLimitConfig) : RateLimiter := ⟨[], config⟩

/-- The filter `now - timestamp < timeWindow` run on every access. -/
def purge (rl : RateLimiter) (now : Nat) : List Nat :=
  rl.requests.filter (fun t => now - t < rl.config.timeWindow)

/-- TS `RateLimiter.acquire`. -/
def acquire (rl : RateLimiter) (now : Nat) : RateLimiter × Bool :=
  let reqs := purge rl now
  if rl.config.maxRequests ≤ reqs.length then
    ({ rl with requests := reqs }, false)
  else
    ({ rl with requests := reqs ++ [now] }, true)

/-- TS `RateLimiter.getCurrentUsage` (it also rewrites the filtered list). -/
def getCurrentUsage (rl : RateLimiter) (now : Nat) : RateLimiter × Nat :=
  let reqs := purge rl now
  ({ rl with requests := reqs }, reqs.length)

/-- TS `RateLimiter.reset`. -/
def reset (rl : RateLimiter) : RateLimiter := { rl with requests := [] }

/-- One public call on the limiter, at a given `Date.now()`. -/
inductive Op where
  | acquire
  | getUsage
  | reset
deriving Repr, DecidableEq

/-- Apply one call's state effect. -/
def step (rl : RateLimiter) (p : Op × Nat) : RateLimiter :=
  match p.1 with
  | .acquire => (acquire rl p.2).1
  | .getUsage => (getCurrentUsage rl p.2).1
  | .reset => reset rl

/-- The limiter state after a sequence of calls from construction. -/
def runOps (config : RateLimitConfig) (ops : List (Op × Nat)) : RateLimiter :=
  ops.foldl step (init config)

end RateLimiter

/-- TS `EmailStatus.status` values. -/
inductive StatusKind where
  | pending
  | sending
  | sent
  | failed
  | retrying
deriving Repr, DecidableEq

/-- TS `EmailStatus`. -/
structure EmailStatus where
  id : Nat
  status : StatusKind
  attempts : Nat
  maxAttempts : Nat
  lastAttempt : Option Nat
  nextRetry : Option Nat
  result : Option EmailResult
  createdAt : Nat
  updatedAt : Nat
deriving Repr, DecidableEq

/-- TS `EmailServiceConfig` minus the provider list (providers carry
behaviour functions and are passed to the operations separately). -/
structure EmailServiceConfig where
  retry : RetryConfig
  rateLimit : RateLimitConfig
  circuitBreaker : CircuitBreakerConfig
deriving Repr, DecidableEq

/-- TS `EmailProvider`: its name and, as external behaviour, the outcome
`send` would produce at each retry-attempt number. -/
structure EmailProvider where
  name : String
  send : Nat → Except String EmailResult

/-- JS `x || default` on an optional string (empty strings are falsy). -/
def jsOrElse (o : Option String) (d : String) : String :=
  match o with
  | none => d
  | some s => if s = "" then d else s

/-- TS `RateLimiter.waitForSlot`, fuelled: each failed `acquire` computes
the time until the oldest recorded entry expires (clamped at 0 by `Nat`
subtraction, as the TS code skips non-positive sleeps) and retries then.
The cooperative loop terminates in real time whenever `maxRequests ≥ 1`
since entries expire; the fuel bounds the modelled iterations. -/
def RateLimiter.waitForSlotAux (rl : RateLimiter) (now : Nat) :
    Nat → Option (RateLimiter × Nat)
  | 0 => none
  | fuel + 1 =>
    let r := RateLimiter.acquire rl now
    if r.2 then some (r.1, now)
    else
      let oldest := match r.1.requests with
        | [] => now
        | x :: xs => xs.foldl min x
      let waitTime := rl.config.timeWindow - (now - oldest)
      RateLimiter.waitForSlotAux r.1 (now + waitTime) fuel

namespace EmailService

/-- The `EmailService` instance fields: the UUID source is a counter, and
`launched` records the pipelines fired without awaiting (id, the email
object captured by the closure, dedup key). -/
structure State where
  nextUuid : Nat
  statusTracking : List (Nat × EmailStatus)
  idem : IdempotencyService
  breakers : List (String × CircuitBreaker)
  rateLimiter : RateLimiter
  queue : List QueueItem
  launched : List (Nat × EmailData × String)

/-- The field mutations `EmailService.updateStatus` applies to the found
record. -/
def updateStatusRec (es : EmailStatus) (status : StatusKind)
    (result : Option EmailResult) (error : Option String) (now : Nat) : EmailStatus :=
  let es1 := { es with status := status, updatedAt := now }
  match status with
  | .sending => { es1 with attempts := es1.attempts + 1, lastAttempt := some now }
  | .sent =>
    match result with
    | some r => { es1 with result := some r }
    | none => es1
  | .failed =>
    let res : EmailResult :=
      { success := false, messageId := none,
        error := some (jsOrElse error "Unknown error"),
        provider := "unknown", timestamp := now }
    { es1 with result := some res }
  | _ => es1

/-- TS `EmailService.updateStatus` on the tracking map: an absent id is a
silent no-op; the found record is mutated in place. -/
def updateStatus (tracking : List (Nat × EmailStatus)) (emailId : Nat)
    (status : StatusKind) (result : Option EmailResult) (error : Option String)
    (now : Nat) : List (Nat × EmailStatus) :=
  match tracking with
  | [] => []
  | p :: rest =>
    if p.1 = emailId then (p.1, updateStatusRec p.2 status result error now) :: rest
    else p :: updateStatus rest emailId status result error now

/-- `Map.get` on the tracking map. -/
def lookupStatus (tracking : List (Nat × EmailStatus)) (emailId : Nat) :
    Option EmailStatus :=
  (tracking.find? (fun p => p.1 == emailId)).map (fun p => p.2)

/-- TS `EmailService.getEmailStatus`. -/
def getEmailStatus (st : State) (emailId : Nat) : Option EmailStatus :=
  lookupStatus st.statusTracking emailId

/-- Writing the mutated `CircuitBreaker` object back under its provider
name (in TS the `Map` holds the object that `execute` mutates in place). -/
def setBreaker : List (String × CircuitBreaker) → String → CircuitBreaker →
    List (String × CircuitBreaker)
  | [], _, _ => []
  | p :: rest, name, cb =>
    if p.1 = name then (p.1, cb) :: rest else p :: setBreaker rest name cb

/-- The thrown message
`Circuit breaker is OPEN. Last failure: ${lastFailureTime}`. -/
def circuitOpenMessage (lastFailure : Option Nat) : String :=
  "Circuit breaker is OPEN. Last failure: " ++
    (match lastFailure with
     | none => "undefined"
     | some t => toString t)

/-- TS `EmailService.sendWithFallback`, iterating the remaining providers
with the running `lastError`: each attempt is
`circuitBreaker.execute(retryMechanism.execute(provider.send))`; a provider
with no registered breaker is skipped; a success outcome short-circuits; a
structured failure or a thrown error records the last cause and falls
through to the next provider; exhaustion throws the last cause (or
`All providers failed`). -/
def sendWithFallbackAux (retryCfg : RetryConfig) (now : Nat) :
    List EmailProvider → List (String × CircuitBreaker) → Option String →
    List (String × CircuitBreaker) × Except String EmailResult
  | [], bks, lastError => (bks, .error (lastError.getD "All providers failed"))
  | p :: ps, bks, lastError =>
    match bks.find? (fun q => q.1 == p.name) with
    | none => sendWithFallbackAux retryCfg now ps bks lastError
    | some q =>
      let retried := RetryMechanism.execute retryCfg p.send
      let cbRes := CircuitBreaker.execute q.2 now retried.1
      let bks' := setBreaker bks p.name cbRes.1
      match cbRes.2 with
      | .ok r =>
        if r.success then (bks', .ok r)
        else sendWithFallbackAux retryCfg now ps bks'
          (some (jsOrElse r.error "Provider returned failure"))
      | .err e => sendWithFallbackAux retryCfg now ps bks' (some e)
      | .circuitOpen lf =>
        sendWithFallbackAux retryCfg now ps bks' (some (circuitOpenMessage lf))

/-- TS `EmailService.sendWithFallback`. -/
def sendWithFallback (retryCfg : RetryConfig) (providers : List EmailProvider)
    (bks : List (String × CircuitBreaker)) (now : Nat) :
    List (String × CircuitBreaker) × Except String EmailResult :=
  sendWithFallbackAux retryCfg now providers bks none

/-- TS `EmailService.processEmail`: set status sending, wait for a
rate-limit slot (fuelled), run the idempotent send-with-fallback, then set
status sent or failed.  Returns the updated state, the pipeline outcome
(rethrown to the async caller), and whether the fallback body was invoked;
`none` when the fuel for the rate-limit wait runs out. -/
def processEmail (cfg : EmailServiceConfig) (providers : List EmailProvider)
    (st : State) (emailId : Nat) (email : EmailData) (idempotencyKey : String)
    (now fuel : Nat) : Option (State × Except String EmailResult × Bool) :=
  let tracking1 := updateStatus st.statusTracking emailId .sending none none now
  match RateLimiter.waitForSlotAux st.rateLimiter now fuel with
  | none => none
  | some rlres =>
    let ex := IdempotencyService.execute st.idem idempotencyKey st.breakers
      (fun bks => sendWithFallback cfg.retry providers bks rlres.2)
    match ex.2.2.1 with
    | .ok r =>
      some ({ st with statusTracking := updateStatus tracking1 emailId .sent (some r) none rlres.2,
                      idem := ex.1, breakers := ex.2.1, rateLimiter := rlres.1 },
            .ok r, ex.2.2.2)
    | .error e =>
      some ({ st with statusTracking := updateStatus tracking1 emailId .failed none (some e) rlres.2,
                      idem := ex.1, breakers := ex.2.1, rateLimiter := rlres.1 },
            .error e, ex.2.2.2)

/-- TS `EmailService.sendEmail`: synchronously allocate a fresh id, record
an initial pending status, compute the dedup key — the call site passes
`userId` in `generateKey`'s `idempotencyKey` position — fire the pipeline
without awaiting it (recorded in `launched`, with the email object the
closure captured, i.e. after `generateKey`'s in-place sort), and return the
id.  The function is total: no input makes the call itself reject. -/
def sendEmail (cfg : EmailServiceConfig) (st : State) (email : EmailData)
    (userId : Option String) (now : Nat) : Nat × State :=
  let emailId := st.nextUuid
  let status : EmailStatus :=
    { id := emailId, status := .pending, attempts := 0,
      maxAttempts := cfg.retry.maxAttempts, lastAttempt := none, nextRetry := none,
      result := none, createdAt := now, updatedAt := now }
  let keyed := IdempotencyService.generateKey email userId none
  (emailId, { st with nextUuid := st.nextUuid + 1,
                      statusTracking := st.statusTracking ++ [(emailId, status)],
                      launched := st.launched ++ [(emailId, keyed.2, keyed.1)] })

/-- TS `EmailService.enqueueEmail` = `queue.enqueue`; no status record is
created for the returned id. -/
def enqueueEmail (st : State) (email : EmailData) (priority : Int) (now : Nat) :
    Nat × State :=
  let r := EmailQueue.enqueue st.queue email priority st.nextUuid now
  (r.1, { st with nextUuid := st.nextUuid + 1, queue := r.2 })

/-- The handler TS `startQueueProcessing` installs: it dispatches each
dequeued item through `processEmail` with the empty string as the
idempotency key and no user id. -/
def queueHandler (cfg : EmailServiceConfig) (providers : List EmailProvider)
    (st : State) (item : QueueItem) (now fuel : Nat) :
    Option (State × Except String EmailResult × Bool) :=
  processEmail cfg providers st item.id item.email "" now fuel

end EmailService

/-- A provider behaviour that never yields a success: every invocation
either throws or returns a structured failure outcome. -/
def SendFails (x : Except String EmailResult) : Prop :=
  match x with
  | .ok r => r.success = false
  | .error _ => True

/-- Every invocation of the provider fails. -/
def FailsAlways (p : EmailProvider) : Prop := ∀ n, SendFails (p.send n)

/-- C1: the spec claims the three dequeues yield [b, a, c] (ids [1, 0, 2]);
evaluating `EmailQueue.insertWithPriority` on the scenario shows the code
dequeues [c, a, b] (ids [2, 0, 1]): the insertion loop keeps the list in
ascending priority-value order and places a new item before equal-priority
items, contradicting both the spec and the code's own comment
"higher priority = lower index". -/
theorem C1_queue_scenario_eval :
    c1ScenarioQueue.map QueueItem.id = [2, 0, 1] ∧
    c1ScenarioQueue.map QueueItem.id ≠ [1, 0, 2] := by
  constructor <;> decide

/-- While the breaker is CLOSED and the threshold is not yet reached, each
failing `execute` leaves it CLOSED and increments the counter; the failure
that reaches the threshold flips it to OPEN. -/
theorem foldFailures_opens {ε : Type} (cfg : CircuitBreakerConfig) (e : ε) :
    ∀ (ts : List Nat) (cb : CircuitBreaker), cb.state = .CLOSED → cb.config = cfg →
      cb.failureCount + ts.length = cfg.failureThreshold → ts ≠ [] →
      (CircuitBreaker.foldFailures cb e ts).state = .OPEN := by
  intro ts
  induction ts with
  | nil => intro cb _ _ _ hne; exact absurd rfl hne
  | cons t rest ih =>
    intro cb hst hcfg hsum _
    have hstep : (CircuitBreaker.execute (α := Unit) cb t (.error e)).1
        = CircuitBreaker.onFailure cb t := by
      simp [CircuitBreaker.execute, hst, CircuitBreaker.runOp]
    have hfold : CircuitBreaker.foldFailures cb e (t :: rest)
        = CircuitBreaker.foldFailures (CircuitBreaker.onFailure cb t) e rest := by
      simp [CircuitBreaker.foldFailures, List.foldl, hstep]
    rw [hfold]
    rcases rest with _ | ⟨r, rs⟩
    · have hth : cfg.failureThreshold ≤ cb.failureCount + 1 := by
        simp at hsum; omega
      simp [CircuitBreaker.foldFailures, CircuitBreaker.onFailure, hcfg, hth]
    · have hlt : ¬ cfg.failureThreshold ≤ cb.failureCount + 1 := by
        simp at hsum; omega
      have honf : CircuitBreaker.onFailure cb t
          = { cb with failureCount := cb.failureCount + 1, lastFailureTime := some t } := by
        simp [CircuitBreaker.onFailure, hcfg, hlt]
      rw [honf]
      exact ih _ hst hcfg (by simp at hsum ⊢; omega) (by simp)

/-- C2: from the initial breaker, exactly `failureThreshold` consecutive
failing executes reach state OPEN; while OPEN before `nextAttemptTime` every
execute fails fast with the circuit-open error, leaving the breaker untouched
and never invoking the operation; at or after `nextAttemptTime` the single
HALF_OPEN trial runs — success yields CLOSED with failure count 0 and cleared
timestamps, failure yields OPEN with a rescheduled reopen time — and whenever
the operation is invoked and throws, its original error is rethrown
unchanged (the only other possibility being the fail-fast error). -/
theorem C2_circuit_breaker {ε α : Type} (cfg : CircuitBreakerConfig)
    (hth : 1 ≤ cfg.failureThreshold) :
    (∀ (e : ε) (ts : List Nat), ts.length = cfg.failureThreshold →
      (CircuitBreaker.foldFailures (CircuitBreaker.init cfg) e ts).state = .OPEN) ∧
    (∀ (cb : CircuitBreaker) (t now : Nat) (op : Except ε α), cb.state = .OPEN →
      cb.nextAttemptTime = some t → now < t →
      cb.execute now op = (cb, .circuitOpen cb.lastFailureTime)) ∧
    (∀ (cb : CircuitBreaker) (t now : Nat) (a : α), cb.state = .OPEN →
      cb.nextAttemptTime = some t → t ≤ now →
      cb.execute now (.ok a)
        = (⟨.CLOSED, 0, none, none, cb.config⟩, CircuitBreaker.Outcome.ok (ε := ε) a)) ∧
    (∀ (cb : CircuitBreaker) (t now : Nat) (e : ε), cb.state = .OPEN →
      cb.nextAttemptTime = some t → t ≤ now →
      cfg.failureThreshold ≤ cb.failureCount + 1 → cb.config = cfg →
      cb.execute (α := α) now (.error e)
        = (⟨.OPEN, cb.failureCount + 1, some now, some (now + cfg.recoveryTimeout), cfg⟩,
           CircuitBreaker.Outcome.err e)) ∧
    (∀ (cb : CircuitBreaker) (now : Nat) (e : ε),
      (cb.execute (α := α) now (.error e)).2 = .err e ∨
      (cb.execute (α := α) now (.error e)).2 = .circuitOpen cb.lastFailureTime) := by
  refine ⟨?_, ?_, ?_, ?_, ?_⟩
  · intro e ts hlen
    exact foldFailures_opens cfg e ts (CircuitBreaker.init cfg) rfl rfl
      (by simpa [CircuitBreaker.init] using hlen) (by intro h; subst h; simp at hlen; omega)
  · intro cb t now op hst hnext hlt
    have : CircuitBreaker.shouldAttemptReset cb now = false := by
      simp [CircuitBreaker.shouldAttemptReset, hnext]; omega
    simp [CircuitBreaker.execute, hst, this]
  · intro cb t now a hst hnext hle
    have : CircuitBreaker.shouldAttemptReset cb now = true := by
      simp [CircuitBreaker.shouldAttemptReset, hnext]; omega
    simp [CircuitBreaker.execute, hst, this, CircuitBreaker.runOp, CircuitBreaker.onSuccess]
  · intro cb t now e hst hnext hle hcnt hcfg
    have hres : CircuitBreaker.shouldAttemptReset cb now = true := by
      simp [CircuitBreaker.shouldAttemptReset, hnext]; omega
    simp [CircuitBreaker.execute, hst, hres, CircuitBreaker.runOp,
          CircuitBreaker.onFailure, hcfg, hcnt]
  · intro cb now e
    by_cases hst : cb.state = .OPEN
    · by_cases hres : CircuitBreaker.shouldAttemptReset cb now = true
      · left; simp [CircuitBreaker.execute, hst, hres, CircuitBreaker.runOp]
      · right; simp [CircuitBreaker.execute, hst, hres]
    · left; simp [CircuitBreaker.execute, hst, CircuitBreaker.runOp]

/-- Witness for C2 at `failureThreshold = 2`, `recoveryTimeout = 100`:
two failures at times 5 and 6 open the circuit; a call at 50 on an open
breaker (reopen scheduled at 106) fails fast; a successful trial at 200
closes it; a failing trial at 200 reopens it. -/
theorem C2_circuit_breaker_witness :
    (CircuitBreaker.foldFailures (CircuitBreaker.init ⟨2, 100, 1000⟩) "boom" [5, 6]).state
      = .OPEN ∧
    CircuitBreaker.execute (ε := String) (α := Nat)
        ⟨.OPEN, 2, some 6, some 106, ⟨2, 100, 1000⟩⟩ 50 (.ok 42)
      = (⟨.OPEN, 2, some 6, some 106, ⟨2, 100, 1000⟩⟩, .circuitOpen (some 6)) ∧
    CircuitBreaker.execute (ε := String) (α := Nat)
        ⟨.OPEN, 2, some 6, some 106, ⟨2, 100, 1000⟩⟩ 200 (.ok 42)
      = (⟨.CLOSED, 0, none, none, ⟨2, 100, 1000⟩⟩, .ok 42) ∧
    CircuitBreaker.execute (ε := String) (α := Nat)
        ⟨.OPEN, 2, some 6, some 106, ⟨2, 100, 1000⟩⟩ 200 (.error "boom")
      = (⟨.OPEN, 3, some 200, some 300, ⟨2, 100, 1000⟩⟩, .err "boom") := by
  have h := C2_circuit_breaker (ε := String) (α := Nat) ⟨2, 100, 1000⟩ (by decide)
  refine ⟨h.1 "boom" [5, 6] (by decide), ?_, ?_, ?_⟩
  · exact h.2.1 ⟨.OPEN, 2, some 6, some 106, ⟨2, 100, 1000⟩⟩ 106 50 (.ok 42) rfl rfl
      (by decide)
  · exact h.2.2.1 ⟨.OPEN, 2, some 6, some 106, ⟨2, 100, 1000⟩⟩ 106 200 42 rfl rfl
      (by decide)
  · exact h.2.2.2.1 ⟨.OPEN, 2, some 6, some 106, ⟨2, 100, 1000⟩⟩ 106 200 "boom" rfl rfl
      (by decide) (by decide) rfl

lemma firstOkFrom_bounds {ε α : Type} (op : Nat → Except ε α) :
    ∀ (fuel attempt k : Nat), RetryMechanism.firstOkFrom op attempt fuel = some k →
      attempt ≤ k ∧ k < attempt + fuel ∧ ∃ a, op k = .ok a := by
  intro fuel
  induction fuel with
  | zero => intro attempt k h; simp [RetryMechanism.firstOkFrom] at h
  | succ f ih =>
    intro attempt k h
    rcases hop : op attempt with e | a
    · rw [RetryMechanism.firstOkFrom, hop] at h
      obtain ⟨h1, h2, h3⟩ := ih (attempt + 1) k h
      exact ⟨by omega, by omega, h3⟩
    · rw [RetryMechanism.firstOkFrom, hop] at h
      simp at h
      subst h
      exact ⟨le_refl _, by omega, ⟨a, hop⟩⟩

lemma firstOkFrom_none {ε α : Type} (op : Nat → Except ε α) :
    ∀ (fuel attempt : Nat), RetryMechanism.firstOkFrom op attempt fuel = none →
      ∀ j, attempt ≤ j → j < attempt + fuel → ∃ e, op j = .error e := by
  intro fuel
  induction fuel with
  | zero => intro attempt _ j h1 h2; omega
  | succ f ih =>
    intro attempt h j h1 h2
    rcases hop : op attempt with e | a
    · rw [RetryMechanism.firstOkFrom, hop] at h
      rcases Nat.eq_or_lt_of_le h1 with heq | hlt
      · exact ⟨e, heq ▸ hop⟩
      · exact ih (attempt + 1) h j hlt (by omega)
    · rw [RetryMechanism.firstOkFrom, hop] at h
      simp at h

/-- Characterization of `RetryMechanism.executeFrom`: the result is the
verbatim outcome of the first successful attempt (with the invocation count
it took), or of the `maxAttempts`-th attempt when no attempt in range
succeeds. -/
lemma executeFrom_spec {ε α : Type} (cfg : RetryConfig) (op : Nat → Except ε α) :
    ∀ (n attempt : Nat), cfg.maxAttempts - attempt = n → attempt ≤ cfg.maxAttempts →
      (∀ k, RetryMechanism.firstOkFrom op attempt (cfg.maxAttempts - attempt + 1) = some k →
        (RetryMechanism.executeFrom cfg op attempt).1 = op k ∧
        (RetryMechanism.executeFrom cfg op attempt).2 + attempt = k + 1) ∧
      (RetryMechanism.firstOkFrom op attempt (cfg.maxAttempts - attempt + 1) = none →
        (RetryMechanism.executeFrom cfg op attempt).1 = op cfg.maxAttempts ∧
        (RetryMechanism.executeFrom cfg op attempt).2 + attempt = cfg.maxAttempts + 1) := by
  intro n
  induction n with
  | zero =>
    intro attempt hn hle
    have hf : cfg.maxAttempts - attempt + 1 = 0 + 1 := by omega
    have hmax : cfg.maxAttempts = attempt := by omega
    rw [hf]
    constructor
    · intro k hk
      rcases hop : op attempt with e | a
      · rw [RetryMechanism.firstOkFrom, hop, RetryMechanism.firstOkFrom] at hk
        exact absurd hk (by simp)
      · rw [RetryMechanism.firstOkFrom, hop] at hk
        simp at hk
        subst hk
        constructor
        · rw [RetryMechanism.executeFrom]
          simp [hop]
        · rw [RetryMechanism.executeFrom]
          simp [hop]
          omega
    · intro _
      rcases hop : op attempt with e | a
      · constructor
        · rw [RetryMechanism.executeFrom]
          simp only [hop]
          rw [dif_pos (by omega), hmax, hop]
        · rw [RetryMechanism.executeFrom]
          simp only [hop]
          rw [dif_pos (by omega)]
          simp
          omega
      · constructor
        · rw [RetryMechanism.executeFrom]
          rw [hmax]
          simp [hop]
        · rw [RetryMechanism.executeFrom]
          simp [hop]
          omega
  | succ m ih =>
    intro attempt hn hle
    have hlt : attempt < cfg.maxAttempts := by omega
    have hfe : cfg.maxAttempts - attempt + 1 = (cfg.maxAttempts - (attempt + 1) + 1) + 1 := by
      omega
    have ihx := ih (attempt + 1) (by omega) (by omega)
    constructor
    · intro k hk
      rw [hfe, RetryMechanism.firstOkFrom] at hk
      rcases hop : op attempt with e | a
      · rw [hop] at hk
        obtain ⟨ih1, ih2⟩ := ihx.1 k hk
        constructor
        · rw [RetryMechanism.executeFrom]
          simp only [hop]
          rw [dif_neg (by omega)]
          simpa using ih1
        · rw [RetryMechanism.executeFrom]
          simp only [hop]
          rw [dif_neg (by omega)]
          simp
          omega
      · rw [hop] at hk
        simp at hk
        subst hk
        constructor
        · rw [RetryMechanism.executeFrom]
          simp [hop]
        · rw [RetryMechanism.executeFrom]
          simp [hop]
          omega
    · intro hk
      rw [hfe, RetryMechanism.firstOkFrom] at hk
      rcases hop : op attempt with e | a
      · rw [hop] at hk
        obtain ⟨ih1, ih2⟩ := ihx.2 hk
        constructor
        · rw [RetryMechanism.executeFrom]
          simp only [hop]
          rw [dif_neg (by omega)]
          simpa using ih1
        · rw [RetryMechanism.executeFrom]
          simp only [hop]
          rw [dif_neg (by omega)]
          simp
          omega
      · rw [hop] at hk
        simp at hk

/-- The value returned (or the error rethrown) by the retry loop is always
the verbatim outcome of one of the operation's invocations. -/
lemma executeFrom_result_is_op {ε α : Type} (cfg : RetryConfig)
    (op : Nat → Except ε α) :
    ∀ (n attempt : Nat), cfg.maxAttempts - attempt = n →
      ∃ k, attempt ≤ k ∧ (RetryMechanism.executeFrom cfg op attempt).1 = op k := by
  intro n
  induction n with
  | zero =>
    intro attempt hn
    rcases hop : op attempt with e | a
    · refine ⟨attempt, le_refl _, ?_⟩
      rw [RetryMechanism.executeFrom]
      simp only [hop]
      rw [dif_pos (by omega)]
    · refine ⟨attempt, le_refl _, ?_⟩
      rw [RetryMechanism.executeFrom]
      simp [hop]
  | succ m ih =>
    intro attempt hn
    rcases hop : op attempt with e | a
    · obtain ⟨k, hk1, hk2⟩ := ih (attempt + 1) (by omega)
      refine ⟨k, by omega, ?_⟩
      rw [RetryMechanism.executeFrom]
      simp only [hop]
      rw [dif_neg (by omega)]
      simpa using hk2
    · refine ⟨attempt, le_refl _, ?_⟩
      rw [RetryMechanism.executeFrom]
      simp [hop]

/-- C4: `calculateDelay n = min(initialDelay * backoffMultiplier^(n-1), maxDelay)`
for every attempt `n ≥ 1`; `execute` invokes the operation exactly
`min(attempts-to-first-success, maxAttempts)` times, returning the first
successful result; and when every attempt up to `maxAttempts` fails it
returns the `maxAttempts`-th attempt's error unchanged. -/
theorem C4_retry_mechanism (cfg : RetryConfig) (h1 : 1 ≤ cfg.maxAttempts) :
    (∀ n, 1 ≤ n →
      RetryMechanism.calculateDelay cfg n
        = min (cfg.initialDelay * cfg.backoffMultiplier ^ (n - 1)) cfg.maxDelay) ∧
    (∀ {ε α : Type} (op : Nat → Except ε α),
      (∀ k, RetryMechanism.firstOk op cfg.maxAttempts = some k →
        (RetryMechanism.execute cfg op).1 = op k ∧
        (RetryMechanism.execute cfg op).2 = min k cfg.maxAttempts ∧
        k ≤ cfg.maxAttempts ∧ ∃ a, op k = .ok a) ∧
      (RetryMechanism.firstOk op cfg.maxAttempts = none →
        (RetryMechanism.execute cfg op).1 = op cfg.maxAttempts ∧
        (RetryMechanism.execute cfg op).2 = cfg.maxAttempts ∧
        ∃ e, op cfg.maxAttempts = .error e)) := by
  constructor
  · intro n _; rfl
  · intro ε α op
    have hspec := executeFrom_spec cfg op (cfg.maxAttempts - 1) 1 rfl h1
    have hfuel : cfg.maxAttempts - 1 + 1 = cfg.maxAttempts := by omega
    rw [hfuel] at hspec
    constructor
    · intro k hk
      obtain ⟨hb1, hb2, hb3⟩ := firstOkFrom_bounds op _ _ _ hk
      obtain ⟨hr1, hr2⟩ := hspec.1 k hk
      exact ⟨hr1, by rw [RetryMechanism.execute]; omega, by omega, hb3⟩
    · intro hk
      obtain ⟨hr1, hr2⟩ := hspec.2 hk
      refine ⟨hr1, by rw [RetryMechanism.execute]; omega, ?_⟩
      exact firstOkFrom_none op _ _ hk cfg.maxAttempts h1 (by omega)

/-- Witness for C4 with `maxAttempts = 3`: an operation failing on attempt 1
and succeeding on attempt 2 is invoked exactly twice and yields attempt 2's
result; an always-failing operation is invoked exactly 3 times and yields
attempt 3's error. -/
theorem C4_retry_mechanism_witness :
    (RetryMechanism.execute (ε := String) (α := Nat) ⟨3, 100, 1000, 2⟩
        (fun n => if n = 2 then .ok 7 else .error ("fail" ++ toString n))).1
      = .ok 7 ∧
    (RetryMechanism.execute (ε := String) (α := Nat) ⟨3, 100, 1000, 2⟩
        (fun n => if n = 2 then .ok 7 else .error ("fail" ++ toString n))).2 = 2 ∧
    (RetryMechanism.execute (ε := String) (α := Nat) ⟨3, 100, 1000, 2⟩
        (fun n => .error ("fail" ++ toString n))).1 = .error "fail3" ∧
    (RetryMechanism.execute (ε := String) (α := Nat) ⟨3, 100, 1000, 2⟩
        (fun n => .error ("fail" ++ toString n))).2 = 3 := by
  have h := C4_retry_mechanism ⟨3, 100, 1000, 2⟩ (by decide)
  have hs := (h.2 (fun n => if n = 2 then Except.ok 7 else
    Except.error (α := Nat) ("fail" ++ toString n))).1 2 (by decide)
  have hf := (h.2 (fun n => Except.error (α := Nat) ("fail" ++ toString n))).2 (by decide)
  refine ⟨by simpa using hs.1, by simpa using hs.2.1, by simpa using hf.1,
    by simpa using hf.2.1⟩

/-- C3: a cache hit returns the cached outcome without invoking `op` and
without touching any state; otherwise (key not pending) `op` runs — its
success is cached under the key (and is then a cache hit for later identical
submissions), its failure caches nothing, and in both cases the pending
marker for the key is cleared before `execute` returns or raises. -/
theorem C3_idempotency_execute {σ : Type} (s : IdempotencyService) (key : String)
    (stt : σ) (op : σ → σ × Except String EmailResult) :
    (∀ r, IdempotencyService.getResult s key = some r →
      IdempotencyService.execute s key stt op = (s, stt, .ok r, false)) ∧
    (IdempotencyService.getResult s key = none → key ∉ s.pending →
      (∀ stt' r, op stt = (stt', .ok r) →
        IdempotencyService.execute s key stt op
          = (⟨(key, r) :: s.cache, s.pending⟩, stt', .ok r, true) ∧
        IdempotencyService.getResult ⟨(key, r) :: s.cache, s.pending⟩ key = some r) ∧
      (∀ stt' e, op stt = (stt', .error e) →
        IdempotencyService.execute s key stt op
          = (⟨s.cache, s.pending⟩, stt', .error e, true)) ∧
      key ∉ (IdempotencyService.execute s key stt op).1.pending) := by
  constructor
  · intro r hr
    simp [IdempotencyService.execute, hr]
  · intro hmiss hpend
    have herase : (key :: s.pending).erase key = s.pending := by
      simp [List.erase_cons_head]
    refine ⟨?_, ?_, ?_⟩
    · intro stt' r hop
      constructor
      · simp [IdempotencyService.execute, hmiss, hpend, hop, herase]
      · simp [IdempotencyService.getResult]
    · intro stt' e hop
      simp [IdempotencyService.execute, hmiss, hpend, hop, herase]
    · rcases hop : op stt with ⟨stt', res⟩
      rcases res with e | v
      · simp [IdempotencyService.execute, hmiss, hpend, hop, herase]
      · simp [IdempotencyService.execute, hmiss, hpend, hop, herase]

/-- Witness for C3: a hit on a warm cache returns the cached outcome without
invoking the operation; on a cold cache a successful operation's result is
cached and a failing operation's is not, each with the pending set left
empty. -/
theorem C3_idempotency_execute_witness :
    IdempotencyService.execute (σ := Nat) ⟨[("k", sampleResult)], []⟩ "k" 5
        (fun n => (n + 1, .ok sampleResult))
      = (⟨[("k", sampleResult)], []⟩, 5, .ok sampleResult, false) ∧
    IdempotencyService.execute (σ := Nat) ⟨[], []⟩ "k" 5
        (fun n => (n + 1, .ok sampleResult))
      = (⟨[("k", sampleResult)], []⟩, 6, .ok sampleResult, true) ∧
    IdempotencyService.execute (σ := Nat) ⟨[], []⟩ "k" 5
        (fun n => (n + 1, .error "boom"))
      = (⟨[], []⟩, 6, .error "boom", true) := by
  refine ⟨?_, ?_, ?_⟩
  · exact (C3_idempotency_execute ⟨[("k", sampleResult)], []⟩ "k" 5
      (fun n => (n + 1, .ok sampleResult))).1 sampleResult (by decide)
  · exact (((C3_idempotency_execute ⟨[], []⟩ "k" 5
      (fun n => (n + 1, .ok sampleResult))).2 (by decide) (by decide)).1 6 sampleResult
      rfl).1
  · exact (((C3_idempotency_execute ⟨[], []⟩ "k" 5
      (fun n => (n + 1, .error "boom"))).2 (by decide) (by decide)).2.1 6 "boom" rfl)

/-- C8 counterexample: submitting a message with an unsorted recipient array
and no explicit idempotency token (as `sendEmail` does when no submitter id
is given) mutates the message — `generateKey` sorts `to` in place, so the
caller's object afterwards differs from the submitted one. -/
theorem C8_submit_mutates_counterexample :
    (IdempotencyService.generateKey
        { toAddr := .arr ["b@x.com", "a@x.com"], fromAddr := "f@x.com",
          subject := "s", body := "m", html := none, cc := none, bcc := none,
          attachments := none } none none).2
      ≠ { toAddr := .arr ["b@x.com", "a@x.com"], fromAddr := "f@x.com",
          subject := "s", body := "m", html := none, cc := none, bcc := none,
          attachments := none } := by
  decide

lemma insertSorted_perm (a : String) :
    ∀ l : List String, List.Perm (IdempotencyService.insertSorted a l) (a :: l) := by
  intro l
  induction l with
  | nil => simp [IdempotencyService.insertSorted]
  | cons b bs ih =>
    by_cases h : IdempotencyService.strLe b a = true
    · simp only [IdempotencyService.insertSorted, if_pos h]
      exact (List.Perm.cons b ih).trans (List.Perm.swap a b bs)
    · simp [IdempotencyService.insertSorted, h]

lemma sortStrings_perm : ∀ l : List String,
    List.Perm (IdempotencyService.sortStrings l) l := by
  intro l
  induction l with
  | nil => simp [IdempotencyService.sortStrings]
  | cons a as ih =>
    have h1 : IdempotencyService.sortStrings (a :: as)
        = IdempotencyService.insertSorted a (IdempotencyService.sortStrings as) := rfl
    rw [h1]
    exact (insertSorted_perm a _).trans (List.Perm.cons a ih)

/-- C8 amended: dedup-key generation leaves the message unchanged exactly
when a truthy (non-empty) explicit token is supplied — the guard is JS
truthiness, so an empty-string token also canonicalizes; with an absent or
empty token it sorts the `to` array (when `to` is an array), `cc` and `bcc`
in place, so their element order may change while their element multisets
are preserved (the sort is a permutation), and every other field is left
unchanged. -/
theorem C8_submit_mutation_amended (email : EmailData) (tok userId : Option String) :
    ((IdempotencyService.generateKey email tok userId).2
      = if IdempotencyService.jsTruthy tok then email
        else
          { email with
              toAddr := match email.toAddr with
                | .str s => .str s
                | .arr l => .arr (IdempotencyService.sortStrings l),
              cc := email.cc.map IdempotencyService.sortStrings,
              bcc := email.bcc.map IdempotencyService.sortStrings }) ∧
    (∀ l : List String, List.Perm (IdempotencyService.sortStrings l) l) := by
  constructor
  · by_cases ht : IdempotencyService.jsTruthy tok = true
    · simp [IdempotencyService.generateKey, ht]
    · simp [IdempotencyService.generateKey, ht, IdempotencyService.generateContentKey]
  · exact sortStrings_perm

lemma purge_length_le (rl : RateLimiter) (now : Nat) :
    (RateLimiter.purge rl now).length ≤ rl.requests.length :=
  List.length_filter_le _ _

lemma step_preserves_bound (rl : RateLimiter) (p : RateLimiter.Op × Nat)
    (h : rl.requests.length ≤ rl.config.maxRequests) :
    (RateLimiter.step rl p).requests.length ≤ (RateLimiter.step rl p).config.maxRequests := by
  rcases p with ⟨op, t⟩
  have hp := purge_length_le rl t
  cases op
  · by_cases hc : rl.config.maxRequests ≤ (RateLimiter.purge rl t).length
    · simp [RateLimiter.step, RateLimiter.acquire, hc]
      omega
    · simp [RateLimiter.step, RateLimiter.acquire, hc]
      omega
  · simp [RateLimiter.step, RateLimiter.getCurrentUsage]
    omega
  · simp [RateLimiter.step, RateLimiter.reset]

lemma step_preserves_config (rl : RateLimiter) (p : RateLimiter.Op × Nat) :
    (RateLimiter.step rl p).config = rl.config := by
  rcases p with ⟨op, t⟩
  cases op
  · by_cases hc : rl.config.maxRequests ≤ (RateLimiter.purge rl t).length <;>
      simp [RateLimiter.step, RateLimiter.acquire, hc]
  · simp [RateLimiter.step, RateLimiter.getCurrentUsage]
  · simp [RateLimiter.step, RateLimiter.reset]

lemma runOps_bound (config : RateLimitConfig) (ops : List (RateLimiter.Op × Nat)) :
    (RateLimiter.runOps config ops).requests.length
      ≤ (RateLimiter.runOps config ops).config.maxRequests := by
  suffices h : ∀ (l : List (RateLimiter.Op × Nat)) (rl : RateLimiter),
      rl.requests.length ≤ rl.config.maxRequests →
      (l.foldl RateLimiter.step rl).requests.length
        ≤ (l.foldl RateLimiter.step rl).config.maxRequests by
    exact h ops (RateLimiter.init config) (by simp [RateLimiter.init])
  intro l
  induction l with
  | nil => intro rl h; exact h
  | cons p rest ih =>
    intro rl h
    exact ih (RateLimiter.step rl p) (step_preserves_bound rl p h)

/-- C7: from construction, whatever sequence of calls is made and at
whatever times, the reported current usage never exceeds `maxRequests`;
`acquire` admits (appending the current timestamp) exactly when the
post-purge count is below the maximum and otherwise returns false leaving
only the purge behind; and once `timeWindow` has elapsed past every recorded
admission, with no new ones, `getCurrentUsage` reports 0. -/
theorem C7_rate_limiter (config : RateLimitConfig) :
    (∀ (ops : List (RateLimiter.Op × Nat)) (now : Nat),
      (RateLimiter.getCurrentUsage (RateLimiter.runOps config ops) now).2
        ≤ config.maxRequests) ∧
    (∀ (rl : RateLimiter) (now : Nat),
      ((RateLimiter.acquire rl now).2 = true ↔
        (RateLimiter.purge rl now).length < rl.config.maxRequests) ∧
      ((RateLimiter.acquire rl now).2 = true →
        (RateLimiter.acquire rl now).1.requests = RateLimiter.purge rl now ++ [now]) ∧
      ((RateLimiter.acquire rl now).2 = false →
        (RateLimiter.acquire rl now).1.requests = RateLimiter.purge rl now)) ∧
    (∀ (rl : RateLimiter) (t : Nat), rl.config = config →
      (∀ e ∈ rl.requests, e ≤ t) →
      (RateLimiter.getCurrentUsage rl (t + config.timeWindow)).2 = 0) := by
  refine ⟨?_, ?_, ?_⟩
  · intro ops now
    have hb := runOps_bound config ops
    have hc : (RateLimiter.runOps config ops).config = config := by
      have : ∀ (l : List (RateLimiter.Op × Nat)) (rl : RateLimiter),
          (l.foldl RateLimiter.step rl).config = rl.config := by
        intro l
        induction l with
        | nil => intro rl; rfl
        | cons p rest ih =>
          intro rl
          rw [List.foldl_cons, ih, step_preserves_config]
      exact this ops (RateLimiter.init config)
    rw [hc] at hb
    have hp := purge_length_le (RateLimiter.runOps config ops) now
    simp only [RateLimiter.getCurrentUsage]
    omega
  · intro rl now
    by_cases hc : rl.config.maxRequests ≤ (RateLimiter.purge rl now).length
    · refine ⟨?_, ?_, ?_⟩
      · simp [RateLimiter.acquire, hc]
      · intro h
        simp [RateLimiter.acquire, hc] at h
      · intro _
        simp [RateLimiter.acquire, hc]
    · refine ⟨?_, ?_, ?_⟩
      · simp [RateLimiter.acquire, hc]
        omega
      · intro _
        simp [RateLimiter.acquire, hc]
      · intro h
        simp [RateLimiter.acquire, hc] at h
  · intro rl t hcfg hall
    have hp : RateLimiter.purge rl (t + config.timeWindow) = [] := by
      rw [RateLimiter.purge, List.filter_eq_nil_iff]
      intro e he
      have := hall e he
      simp [hcfg]
      omega
    simp [RateLimiter.getCurrentUsage, hp]

/-- Witness for C7 with `maxRequests = 2`, `timeWindow = 100`: three
immediate acquires leave usage at 2, and at time 150 the usage of a limiter
whose entries are all ≤ 50 is 0. -/
theorem C7_rate_limiter_witness :
    (RateLimiter.getCurrentUsage
        (RateLimiter.runOps ⟨2, 100⟩ [(.acquire, 0), (.acquire, 1), (.acquire, 2)]) 3).2
      ≤ 2 ∧
    (RateLimiter.getCurrentUsage ⟨[10, 50], ⟨2, 100⟩⟩ 150).2 = 0 := by
  constructor
  · exact (C7_rate_limiter ⟨2, 100⟩).1 [(.acquire, 0), (.acquire, 1), (.acquire, 2)] 3
  · exact (C7_rate_limiter ⟨2, 100⟩).2.2 ⟨[10, 50], ⟨2, 100⟩⟩ 50 rfl (by decide)

lemma updateStatus_absent (emailId : Nat) (status : StatusKind)
    (result : Option EmailResult) (error : Option String) (now : Nat) :
    ∀ tracking : List (Nat × EmailStatus),
      tracking.find? (fun p => p.1 == emailId) = none →
      EmailService.updateStatus tracking emailId status result error now = tracking := by
  intro tracking
  induction tracking with
  | nil => intro _; rfl
  | cons p rest ih =>
    intro h
    by_cases hp : p.1 = emailId
    · simp [List.find?_cons, hp] at h
    · have hb : (p.1 == emailId) = false := by simp [hp]
      rw [List.find?_cons, hb] at h
      simp only [EmailService.updateStatus, if_neg hp]
      rw [ih h]

lemma lookupStatus_updateStatus (emailId : Nat) (status : StatusKind)
    (result : Option EmailResult) (error : Option String) (now : Nat) :
    ∀ tracking : List (Nat × EmailStatus),
      EmailService.lookupStatus
          (EmailService.updateStatus tracking emailId status result error now) emailId
        = (EmailService.lookupStatus tracking emailId).map
            (fun r => EmailService.updateStatusRec r status result error now) := by
  intro tracking
  induction tracking with
  | nil => rfl
  | cons p rest ih =>
    by_cases hp : p.1 = emailId
    · simp [EmailService.updateStatus, hp, EmailService.lookupStatus, List.find?_cons]
    · have hb : (p.1 == emailId) = false := by simp [hp]
      simp only [EmailService.updateStatus, if_neg hp]
      simp only [EmailService.lookupStatus, List.find?_cons, hb] at ih ⊢
      exact ih

lemma find?_tracking_none_of_fresh (tracking : List (Nat × EmailStatus)) (bound : Nat)
    (hfresh : ∀ p ∈ tracking, p.1 < bound) (id : Nat) (hid : bound ≤ id) :
    tracking.find? (fun p => p.1 == id) = none := by
  rw [List.find?_eq_none]
  intro p hp
  have := hfresh p hp
  simp
  omega

/-- C5: `sendEmail` is a total function of its inputs — the call itself
never rejects, pipeline failures being visible only through the status
table — and it returns the fresh, previously untracked id, records an
initial status with status pending and attempts 0 under that id, computes
the dedup key, and appends the pipeline launch (with the captured email and
that key) to `launched` without running any of it (idempotency cache, queue
and breakers untouched). -/
theorem C5_sendEmail_submit (cfg : EmailServiceConfig) (st : EmailService.State)
    (email : EmailData) (userId : Option String) (now : Nat)
    (hfresh : ∀ p ∈ st.statusTracking, p.1 < st.nextUuid) :
    (EmailService.sendEmail cfg st email userId now).1 = st.nextUuid ∧
    EmailService.getEmailStatus st (EmailService.sendEmail cfg st email userId now).1
      = none ∧
    EmailService.getEmailStatus (EmailService.sendEmail cfg st email userId now).2
        (EmailService.sendEmail cfg st email userId now).1
      = some { id := st.nextUuid, status := .pending, attempts := 0,
               maxAttempts := cfg.retry.maxAttempts, lastAttempt := none,
               nextRetry := none, result := none, createdAt := now, updatedAt := now } ∧
    (EmailService.sendEmail cfg st email userId now).2.launched
      = st.launched ++ [(st.nextUuid,
          (IdempotencyService.generateKey email userId none).2,
          (IdempotencyService.generateKey email userId none).1)] ∧
    (EmailService.sendEmail cfg st email userId now).2.idem = st.idem ∧
    (EmailService.sendEmail cfg st email userId now).2.breakers = st.breakers ∧
    (EmailService.sendEmail cfg st email userId now).2.queue = st.queue := by
  have hnone := find?_tracking_none_of_fresh st.statusTracking st.nextUuid hfresh
    st.nextUuid (le_refl _)
  refine ⟨rfl, ?_, ?_, rfl, rfl, rfl, rfl⟩
  · simp [EmailService.sendEmail, EmailService.getEmailStatus,
          EmailService.lookupStatus, hnone]
  · simp [EmailService.sendEmail, EmailService.getEmailStatus,
          EmailService.lookupStatus, List.find?_append, hnone, List.find?_cons]

/-- Witness for C5 on an empty service: submitting returns id 0 with a
pending, zero-attempt record, and the pipeline launch is only recorded. -/
theorem C5_sendEmail_submit_witness :
    (EmailService.sendEmail ⟨⟨3, 100, 1000, 2⟩, ⟨10, 1000⟩, ⟨5, 60000, 10000⟩⟩
        ⟨0, [], ⟨[], []⟩, [], ⟨[], ⟨10, 1000⟩⟩, [], []⟩ sampleEmail none 7).1 = 0 ∧
    EmailService.getEmailStatus
        (EmailService.sendEmail ⟨⟨3, 100, 1000, 2⟩, ⟨10, 1000⟩, ⟨5, 60000, 10000⟩⟩
          ⟨0, [], ⟨[], []⟩, [], ⟨[], ⟨10, 1000⟩⟩, [], []⟩ sampleEmail none 7).2 0
      = some { id := 0, status := .pending, attempts := 0, maxAttempts := 3,
               lastAttempt := none, nextRetry := none, result := none,
               createdAt := 7, updatedAt := 7 } := by
  have h := C5_sendEmail_submit ⟨⟨3, 100, 1000, 2⟩, ⟨10, 1000⟩, ⟨5, 60000, 10000⟩⟩
    ⟨0, [], ⟨[], []⟩, [], ⟨[], ⟨10, 1000⟩⟩, [], []⟩ sampleEmail none 7 (by simp)
  exact ⟨h.1, by simpa using h.2.2.1⟩

/-- C10: the id returned by `enqueueEmail` never acquires a status record:
no record is created at enqueue time; `updateStatus` on an untracked id is a
silent no-op; the drain pipeline's processing of the queued item leaves the
whole status table unchanged (all its status writes are for that untracked
id); and a later submission tracks only its own fresh id — so
`getEmailStatus` of the queued id is `none` before, during, and after
processing. -/
theorem C10_enqueued_id_untracked (cfg : EmailServiceConfig)
    (providers : List EmailProvider) (st : EmailService.State) (email : EmailData)
    (priority : Int) (now : Nat)
    (hfresh : ∀ p ∈ st.statusTracking, p.1 < st.nextUuid) :
    (EmailService.enqueueEmail st email priority now).2.statusTracking
      = st.statusTracking ∧
    EmailService.getEmailStatus (EmailService.enqueueEmail st email priority now).2
        (EmailService.enqueueEmail st email priority now).1 = none ∧
    (∀ (tracking : List (Nat × EmailStatus)) (s : StatusKind)
        (res : Option EmailResult) (err : Option String) (t : Nat) (id : Nat),
      tracking.find? (fun p => p.1 == id) = none →
      EmailService.updateStatus tracking id s res err t = tracking) ∧
    (∀ (st' : EmailService.State) (item : QueueItem) (t fuel : Nat)
        (out : EmailService.State × Except String EmailResult × Bool),
      st'.statusTracking.find? (fun p => p.1 == item.id) = none →
      EmailService.queueHandler cfg providers st' item t fuel = some out →
      out.1.statusTracking = st'.statusTracking) ∧
    (∀ (email2 : EmailData) (uid : Option String) (t : Nat),
      EmailService.getEmailStatus
        (EmailService.sendEmail cfg (EmailService.enqueueEmail st email priority now).2
          email2 uid t).2
        (EmailService.enqueueEmail st email priority now).1 = none) := by
  have hnone := find?_tracking_none_of_fresh st.statusTracking st.nextUuid hfresh
    st.nextUuid (le_refl _)
  refine ⟨rfl, ?_, ?_, ?_, ?_⟩
  · simp [EmailService.enqueueEmail, EmailService.getEmailStatus,
          EmailService.lookupStatus, EmailQueue.enqueue, hnone]
  · intro tracking s res err t id h
    exact updateStatus_absent id s res err t tracking h
  · intro st' item t fuel out habs hrun
    rw [EmailService.queueHandler, EmailService.processEmail] at hrun
    rw [updateStatus_absent item.id .sending none none t st'.statusTracking habs] at hrun
    cases hslot : RateLimiter.waitForSlotAux st'.rateLimiter t fuel with
    | none => rw [hslot] at hrun; exact absurd hrun (by simp)
    | some rlres =>
      simp only [hslot] at hrun
      cases hex : (IdempotencyService.execute st'.idem "" st'.breakers
          (fun bks => EmailService.sendWithFallback cfg.retry providers bks rlres.2)).2.2.1 with
      | ok r =>
        simp only [hex, Option.some.injEq] at hrun
        rw [← hrun]
        exact updateStatus_absent item.id .sent (some r) none rlres.2 st'.statusTracking habs
      | error e =>
        simp only [hex, Option.some.injEq] at hrun
        rw [← hrun]
        exact updateStatus_absent item.id .failed none (some e) rlres.2 st'.statusTracking habs
  · intro email2 uid t
    have hne : st.nextUuid + 1 ≠ st.nextUuid := by omega
    simp [EmailService.sendEmail, EmailService.enqueueEmail, EmailQueue.enqueue,
          EmailService.getEmailStatus, EmailService.lookupStatus, List.find?_append,
          hnone, List.find?_cons, hne]

/-- Witness for C10 on an empty service with one always-failing provider:
the enqueued id 0 has no status before processing, and the drain handler's
run leaves the (empty) status table unchanged. -/
theorem C10_enqueued_id_untracked_witness :
    EmailService.getEmailStatus
        (EmailService.enqueueEmail ⟨0, [], ⟨[], []⟩, [], ⟨[], ⟨10, 1000⟩⟩, [], []⟩
          sampleEmail 5 0).2
        (EmailService.enqueueEmail ⟨0, [], ⟨[], []⟩, [], ⟨[], ⟨10, 1000⟩⟩, [], []⟩
          sampleEmail 5 0).1 = none := by
  have h := C10_enqueued_id_untracked ⟨⟨3, 100, 1000, 2⟩, ⟨10, 1000⟩, ⟨5, 60000, 10000⟩⟩
    [] ⟨0, [], ⟨[], []⟩, [], ⟨[], ⟨10, 1000⟩⟩, [], []⟩ sampleEmail 5 0 (by simp)
  exact h.2.1

/-- C9: the drain handler always dispatches with the empty string as the
dedup key, so every queued email shares one key; consequently, once the
cache holds a result under `""`, processing any queued item (whatever its
content) adopts that cached outcome — the fallback body is never invoked,
the breakers are untouched, and the cached result is reported — until the
cache is cleared. -/
theorem C9_queue_drain_shared_key (cfg : EmailServiceConfig)
    (providers : List EmailProvider) :
    (∀ (st : EmailService.State) (item : QueueItem) (now fuel : Nat),
      EmailService.queueHandler cfg providers st item now fuel
        = EmailService.processEmail cfg providers st item.id item.email "" now fuel) ∧
    (∀ (st : EmailService.State) (item : QueueItem) (now fuel : Nat)
        (r : EmailResult) (rlres : RateLimiter × Nat),
      IdempotencyService.getResult st.idem "" = some r →
      RateLimiter.waitForSlotAux st.rateLimiter now fuel = some rlres →
      EmailService.queueHandler cfg providers st item now fuel
        = some ({ st with
                    statusTracking := EmailService.updateStatus
                      (EmailService.updateStatus st.statusTracking item.id .sending
                        none none now)
                      item.id .sent (some r) none rlres.2,
                    rateLimiter := rlres.1 },
                .ok r, false)) := by
  constructor
  · intro st item now fuel
    rfl
  · intro st item now fuel r rlres hhit hslot
    rw [EmailService.queueHandler, EmailService.processEmail]
    simp only [hslot]
    have hex : IdempotencyService.execute st.idem "" st.breakers
        (fun bks => EmailService.sendWithFallback cfg.retry providers bks rlres.2)
        = (st.idem, st.breakers, .ok r, false) := by
      simp [IdempotencyService.execute, hhit]
    simp only [hex]

/-- Witness for C9: with `sampleResult` cached under the empty key, a queued
item is processed into that cached outcome without invoking any backend. -/
theorem C9_queue_drain_shared_key_witness :
    EmailService.queueHandler ⟨⟨3, 100, 1000, 2⟩, ⟨10, 1000⟩, ⟨5, 60000, 10000⟩⟩ []
        ⟨1, [], ⟨[("", sampleResult)], []⟩, [], ⟨[], ⟨10, 1000⟩⟩, [], []⟩
        ⟨0, sampleEmail, 0, 0, 0⟩ 3 1
      = some (⟨1, [], ⟨[("", sampleResult)], []⟩, [], ⟨[3], ⟨10, 1000⟩⟩, [], []⟩,
              .ok sampleResult, false) := by
  have h := (C9_queue_drain_shared_key ⟨⟨3, 100, 1000, 2⟩, ⟨10, 1000⟩, ⟨5, 60000, 10000⟩⟩
    []).2 ⟨1, [], ⟨[("", sampleResult)], []⟩, [], ⟨[], ⟨10, 1000⟩⟩, [], []⟩
    ⟨0, sampleEmail, 0, 0, 0⟩ 3 1 sampleResult (⟨[3], ⟨10, 1000⟩⟩, 3) rfl
    (by simp [RateLimiter.waitForSlotAux, RateLimiter.acquire, RateLimiter.purge])
  simpa [EmailService.updateStatus] using h

lemma cb_execute_cases {ε α : Type} (cb : CircuitBreaker) (now : Nat) (op : Except ε α) :
    (CircuitBreaker.execute cb now op).2 = .circuitOpen cb.lastFailureTime ∨
    ((∀ e, op = .error e → (CircuitBreaker.execute cb now op).2 = .err e) ∧
     (∀ a, op = .ok a → (CircuitBreaker.execute cb now op).2 = .ok a)) := by
  by_cases h1 : cb.state = .OPEN
  · by_cases h2 : CircuitBreaker.shouldAttemptReset cb now = true
    · right
      constructor
      · intro e he
        subst he
        simp [CircuitBreaker.execute, h1, h2, CircuitBreaker.runOp]
      · intro a ha
        subst ha
        simp [CircuitBreaker.execute, h1, h2, CircuitBreaker.runOp]
    · left
      simp [CircuitBreaker.execute, h1, h2]
  · right
    constructor
    · intro e he
      subst he
      simp [CircuitBreaker.execute, h1, CircuitBreaker.runOp]
    · intro a ha
      subst ha
      simp [CircuitBreaker.execute, h1, CircuitBreaker.runOp]

/-- When every remaining provider fails on every invocation, the fallback
loop exhausts them all and throws. -/
lemma sendWithFallbackAux_allFail (retryCfg : RetryConfig) (now : Nat) :
    ∀ (ps : List EmailProvider) (bks : List (String × CircuitBreaker))
      (le : Option String), (∀ p ∈ ps, FailsAlways p) →
      ∃ msg, (EmailService.sendWithFallbackAux retryCfg now ps bks le).2 = .error msg := by
  intro ps
  induction ps with
  | nil =>
    intro bks le _
    exact ⟨le.getD "All providers failed", rfl⟩
  | cons p rest ih =>
    intro bks le hall
    have hrest : ∀ q ∈ rest, FailsAlways q := fun q hq => hall q (List.mem_cons_of_mem _ hq)
    have hp : FailsAlways p := hall p (List.mem_cons_self _ _)
    cases hfind : bks.find? (fun q => q.1 == p.name) with
    | none =>
      simp only [EmailService.sendWithFallbackAux, hfind]
      exact ih bks le hrest
    | some q =>
      obtain ⟨k, _, hk⟩ := executeFrom_result_is_op retryCfg p.send
        (retryCfg.maxAttempts - 1) 1 rfl
      have hfail : SendFails (RetryMechanism.execute retryCfg p.send).1 := by
        rw [RetryMechanism.execute, hk]
        exact hp k
      rcases hret : (RetryMechanism.execute retryCfg p.send).1 with e | r
      · rcases cb_execute_cases q.2 now (Except.error (α := EmailResult) e)
          with hcb | ⟨hcberr, _⟩
        · simp only [EmailService.sendWithFallbackAux, hfind, hret, hcb]
          exact ih _ _ hrest
        · have hcb := hcberr e rfl
          simp only [EmailService.sendWithFallbackAux, hfind, hret, hcb]
          exact ih _ _ hrest
      · have hsf : r.success = false := by
          rw [hret] at hfail
          simpa [SendFails] using hfail
        rcases cb_execute_cases q.2 now (Except.ok (ε := String) r)
          with hcb | ⟨_, hcbok⟩
        · simp only [EmailService.sendWithFallbackAux, hfind, hret, hcb]
          exact ih _ _ hrest
        · have hcb := hcbok r rfl
          simp only [EmailService.sendWithFallbackAux, hfind, hret, hcb, hsf,
                     Bool.false_eq_true, if_false]
          exact ih _ _ hrest

lemma jsOrElse_ne_empty (o : Option String) (d : String) (hd : d ≠ "") :
    jsOrElse o d ≠ "" := by
  rcases o with _ | s
  · exact hd
  · by_cases hs : s = "" <;> simp [jsOrElse, hs, hd]

/-- C6: for a tracked submission whose dedup key is cold and not pending,
if every configured backend fails on every invocation then the pipeline
terminates with a thrown aggregate failure, the record moves to status
failed, and its synthetic outcome has `success = false`, a non-empty error
text, and the `"unknown"` provider tag. -/
theorem C6_all_backends_fail (cfg : EmailServiceConfig)
    (providers : List EmailProvider) (st : EmailService.State) (emailId : Nat)
    (email : EmailData) (key : String) (now fuel : Nat) (rec0 : EmailStatus)
    (rlres : RateLimiter × Nat)
    (hrec : EmailService.lookupStatus st.statusTracking emailId = some rec0)
    (hmiss : IdempotencyService.getResult st.idem key = none)
    (hpend : key ∉ st.idem.pending)
    (hall : ∀ p ∈ providers, FailsAlways p)
    (hslot : RateLimiter.waitForSlotAux st.rateLimiter now fuel = some rlres) :
    ∃ (out : EmailService.State × Except String EmailResult × Bool) (msg : String)
      (rec1 : EmailStatus),
      EmailService.processEmail cfg providers st emailId email key now fuel
        = some out ∧
      out = (out.1, .error msg, true) ∧
      EmailService.lookupStatus out.1.statusTracking emailId = some rec1 ∧
      rec1.status = .failed ∧
      ∃ res, rec1.result = some res ∧ res.success = false ∧
        res.provider = "unknown" ∧ ∃ etext, res.error = some etext ∧ etext ≠ "" := by
  obtain ⟨msg, hmsg⟩ := sendWithFallbackAux_allFail cfg.retry rlres.2 providers
    st.breakers none hall
  have hex : IdempotencyService.execute st.idem key st.breakers
      (fun bks => EmailService.sendWithFallback cfg.retry providers bks rlres.2)
      = (⟨st.idem.cache, (key :: st.idem.pending).erase key⟩,
         (EmailService.sendWithFallback cfg.retry providers st.breakers rlres.2).1,
         .error msg, true) := by
    rw [IdempotencyService.execute, hmiss]
    simp only [EmailService.sendWithFallback] at hmsg ⊢
    simp [hpend, hmsg]
  have hproc : EmailService.processEmail cfg providers st emailId email key now fuel
      = some ({ st with
          statusTracking := EmailService.updateStatus
            (EmailService.updateStatus st.statusTracking emailId .sending none none now)
            emailId .failed none (some msg) rlres.2,
          idem := ⟨st.idem.cache, (key :: st.idem.pending).erase key⟩,
          breakers := (EmailService.sendWithFallback cfg.retry providers
            st.breakers rlres.2).1,
          rateLimiter := rlres.1 }, .error msg, true) := by
    rw [EmailService.processEmail]
    simp only [hslot, hex]
  have hlook : EmailService.lookupStatus
      (EmailService.updateStatus
        (EmailService.updateStatus st.statusTracking emailId .sending none none now)
        emailId .failed none (some msg) rlres.2) emailId
      = some (EmailService.updateStatusRec
          (EmailService.updateStatusRec rec0 .sending none none now)
          .failed none (some msg) rlres.2) := by
    rw [lookupStatus_updateStatus, lookupStatus_updateStatus, hrec]
    rfl
  refine ⟨_, msg, _, hproc, rfl, hlook, rfl, ?_⟩
  exact ⟨_, rfl, rfl, rfl, _, rfl,
    jsOrElse_ne_empty (some msg) "Unknown error" (by decide)⟩

/-- Witness for C6: one provider that always throws `"boom"`, a tracked
pending record for id 0, a cold dedup cache, and an immediately granted
rate-limit slot. -/
theorem C6_all_backends_fail_witness :
    ∃ (out : EmailService.State × Except String EmailResult × Bool) (msg : String)
      (rec1 : EmailStatus),
      EmailService.processEmail ⟨⟨1, 100, 1000, 2⟩, ⟨10, 1000⟩, ⟨5, 60000, 10000⟩⟩
          [⟨"A", fun _ => .error "boom"⟩]
          ⟨1, [(0, ⟨0, .pending, 0, 1, none, none, none, 0, 0⟩)], ⟨[], []⟩,
           [("A", CircuitBreaker.init ⟨5, 60000, 10000⟩)], ⟨[], ⟨10, 1000⟩⟩, [], []⟩
          0 sampleEmail "k" 7 1
        = some out ∧
      out = (out.1, .error msg, true) ∧
      EmailService.lookupStatus out.1.statusTracking 0 = some rec1 ∧
      rec1.status = .failed ∧
      ∃ res, rec1.result = some res ∧ res.success = false ∧
        res.provider = "unknown" ∧ ∃ etext, res.error = some etext ∧ etext ≠ "" := by
  refine C6_all_backends_fail ⟨⟨1, 100, 1000, 2⟩, ⟨10, 1000⟩, ⟨5, 60000, 10000⟩⟩
    [⟨"A", fun _ => .error "boom"⟩]
    ⟨1, [(0, ⟨0, .pending, 0, 1, none, none, none, 0, 0⟩)], ⟨[], []⟩,
     [("A", CircuitBreaker.init ⟨5, 60000, 10000⟩)], ⟨[], ⟨10, 1000⟩⟩, [], []⟩
    0 sampleEmail "k" 7 1 ⟨0, .pending, 0, 1, none, none, none, 0, 0⟩
    (⟨[7], ⟨10, 1000⟩⟩, 7) rfl rfl (by simp) ?_ rfl
  intro p hp
  simp only [List.mem_singleton] at hp
  subst hp
  intro n
  exact trivial
